import Mathlib

/-!
Shallow embedding of the asset-pipe-server bundling core
(`src/unnamed/part_000`, the library exporting `createHashFromContent`,
`fetchFeeds`, `parseFeeds`, `bundleFeeds`, `upload`, `bundleAndUpload`,
`parseBody`, `validateFeeds`, together with the Joi schema `ids` from
`src/lib/schemas.js`).

External collaborators (the Sink's `get`/`set`, the JS/CSS bundlers,
the JSON decoder of the JavaScript runtime) are modelled as parameters:
a Sink is a pair of state-transformers over an abstract state type, and
the bundlers and decoders are functions supplied by the caller, exactly
as the source receives them through `require`.  Stateful behaviour
(transient failures followed by success, writes becoming visible) is
expressed by threading the sink state.  The per-id fetches that the
source launches through `Promise.all` are sequentialised in list order;
this determinisation preserves the result value in every situation the
claims speak about (order of outputs, first failure aborting the whole
batch with no partial result).
-/

set_option maxRecDepth 8000

namespace AssetPipeServer

/-- Substring test, the semantics of JavaScript `s.includes(pat)` used at
`part_000` line 24 to recognise the Sink's "object not found" error class. -/
def includesSubstr (s pat : String) : Bool :=
  (List.range (s.data.length + 1)).any fun i => pat.data.isPrefixOf (s.data.drop i)

/-- JavaScript line terminators, the characters the regexp metacharacter `.`
does not match. -/
def isLineTerm (c : Char) : Bool :=
  c = '\n' || c = '\r' || c = Char.ofNat 8232 || c = Char.ofNat 8233

/-- Semantics of the JavaScript test `/File ".*json" not found/.test(s)`
(`part_000` line 37): the string contains an occurrence of the literal
`File "`, then any (possibly empty) run of non-line-terminator characters,
then the literal `json" not found`.  The dot of `.json` in the pattern is an
unescaped wildcard. -/
def testFileJsonNotFound (s : String) : Bool :=
  let cs := s.data
  let pre := "File \"".data
  let suf := "json\" not found".data
  (List.range (cs.length + 1)).any fun i =>
    pre.isPrefixOf (cs.drop i) &&
      (let r := (cs.drop i).drop pre.length
       (List.range (r.length + 1)).any fun k =>
         ((r.take k).all fun c => !(isLineTerm c)) && suf.isPrefixOf (r.drop k))

/-- A JavaScript `Error` as far as the source inspects it: its `message`,
plus whether it is an instance of `pretry.AbortError` (the marker class
`p-retry` uses to stop retrying). -/
structure JsError where
  message : String
  isAbort : Bool
deriving DecidableEq, Repr

/-- A Boom-classified failure: HTTP-equivalent status code, the combined
human-readable message, and the original error preserved as the cause
(`Boom.boomify` decorates the original error object in place, so the cause
is the error that was passed in). -/
structure BoomError where
  statusCode : Nat
  message : String
  cause : JsError
deriving DecidableEq, Repr

/-- Semantics of `Boom.boomify(err, options)` (boom v7): the status code
defaults to 500, and a provided message is prefixed onto the original
error's message separated by `": "` (or stands alone if the original
message is empty). -/
def boomify (e : JsError) (statusCode : Option Nat) (msg : Option String) : BoomError :=
  { statusCode := statusCode.getD 500
    message :=
      match msg with
      | some m => if e.message = "" then m else m ++ ": " ++ e.message
      | none => e.message
    cause := e }

/-! SHA-256 (FIPS 180-4), the algorithm behind
`crypto.createHash('sha256').update(content, 'utf8').digest('hex')` in
`createHashFromContent` (`part_000` lines 13-17).  Machine words are
naturals kept below `2^32` by explicit reduction. -/

/-- Addition modulo `2^32`. -/
def add32 (a b : Nat) : Nat := (a + b) % 4294967296

/-- Right rotation of a 32-bit word. -/
def rotr32 (n x : Nat) : Nat :=
  ((x >>> n) ||| ((x <<< (32 - n)) % 4294967296)) % 4294967296

def xor3 (a b c : Nat) : Nat := (a ^^^ b) ^^^ c

def ssig0 (x : Nat) : Nat := xor3 (rotr32 7 x) (rotr32 18 x) (x >>> 3)

def ssig1 (x : Nat) : Nat := xor3 (rotr32 17 x) (rotr32 19 x) (x >>> 10)

def bsig0 (x : Nat) : Nat := xor3 (rotr32 2 x) (rotr32 13 x) (rotr32 22 x)

def bsig1 (x : Nat) : Nat := xor3 (rotr32 6 x) (rotr32 11 x) (rotr32 25 x)

def chFn (x y z : Nat) : Nat := (x &&& y) ^^^ ((x ^^^ 4294967295) &&& z)

def majFn (x y z : Nat) : Nat := ((x &&& y) ^^^ (x &&& z)) ^^^ (y &&& z)

/-- The eight 32-bit working variables of the SHA-256 compression function. -/
structure Words8 where
  a : Nat
  b : Nat
  c : Nat
  d : Nat
  e : Nat
  f : Nat
  g : Nat
  h : Nat
deriving DecidableEq, Repr

/-- The 64 SHA-256 round constants of FIPS 180-4 §4.2.2, in decimal. -/
def sha256K : List Nat :=
  [1116352408, 1899447441, 3049323471, 3921009573, 961987163,
   1508970993, 2453635748, 2870763221, 3624381080, 310598401,
   607225278, 1426881987, 1925078388, 2162078206, 2614888103,
   3248222580, 3835390401, 4022224774, 264347078, 604807628,
   770255983, 1249150122, 1555081692, 1996064986, 2554220882,
   2821834349, 2952996808, 3210313671, 3336571891, 3584528711,
   113926993, 338241895, 666307205, 773529912, 1294757372,
   1396182291, 1695183700, 1986661051, 2177026350, 2456956037,
   2730485921, 2820302411, 3259730800, 3345764771, 3516065817,
   3600352804, 4094571909, 275423344, 430227734, 506948616,
   659060556, 883997877, 958139571, 1322822218, 1537002063,
   1747873779, 1955562222, 2024104815, 2227730452, 2361852424,
   2428436474, 2756734187, 3204031479, 3329325298]

/-- The SHA-256 initial hash value of FIPS 180-4 §5.3.3, in decimal. -/
def sha256H0 : Words8 :=
  ⟨1779033703, 3144134277, 1013904242, 2773480762,
   1359893119, 2600822924, 528734635, 1541459225⟩

/-- Big-endian packing of bytes into 32-bit words. -/
def toWords32 : List Nat → List Nat
  | b0 :: b1 :: b2 :: b3 :: rest =>
      (((b0 * 256 + b1) * 256 + b2) * 256 + b3) :: toWords32 rest
  | _ => []

/-- One step of the message-schedule extension; the accumulator holds the
words produced so far, most recent first. -/
def scheduleStep (acc : List Nat) : List Nat :=
  add32 (add32 (ssig1 (acc.getD 1 0)) (acc.getD 6 0))
        (add32 (ssig0 (acc.getD 14 0)) (acc.getD 15 0)) :: acc

def scheduleAcc : Nat → List Nat → List Nat
  | 0, acc => acc
  | n + 1, acc => scheduleAcc n (scheduleStep acc)

/-- Extend the 16 words of a block to the 64 words of the message schedule. -/
def schedule64 (ws : List Nat) : List Nat :=
  (scheduleAcc 48 ws.reverse).reverse

/-- One SHA-256 round. -/
def roundStep (st : Words8) (k w : Nat) : Words8 :=
  let t1 := add32 (add32 (add32 st.h (bsig1 st.e)) (add32 (chFn st.e st.f st.g) k)) w
  let t2 := add32 (bsig0 st.a) (majFn st.a st.b st.c)
  ⟨add32 t1 t2, st.a, st.b, st.c, add32 st.d t1, st.e, st.f, st.g⟩

/-- The SHA-256 compression function applied to one 64-word schedule. -/
def compress (st0 : Words8) (ws : List Nat) : Words8 :=
  let fin := (sha256K.zip ws).foldl (fun st p => roundStep st p.1 p.2) st0
  ⟨add32 st0.a fin.a, add32 st0.b fin.b, add32 st0.c fin.c, add32 st0.d fin.d,
   add32 st0.e fin.e, add32 st0.f fin.f, add32 st0.g fin.g, add32 st0.h fin.h⟩

/-- SHA-256 padding: append `0x80`, zero bytes up to 56 mod 64, and the
bit length as an 8-byte big-endian integer. -/
def padMessage (msg : List Nat) : List Nat :=
  let L := msg.length
  let z := (119 - L % 64) % 64
  let bits := 8 * L
  msg ++ 128 :: List.replicate z 0 ++
    [(bits >>> 56) % 256, (bits >>> 48) % 256, (bits >>> 40) % 256,
     (bits >>> 32) % 256, (bits >>> 24) % 256, (bits >>> 16) % 256,
     (bits >>> 8) % 256, bits % 256]

/-- Split a byte list into 64-byte blocks (fuel-driven so that it reduces
structurally; the fuel is instantiated with the list length). -/
def chunks64 : Nat → List Nat → List (List Nat)
  | 0, _ => []
  | _ + 1, [] => []
  | fuel + 1, l => l.take 64 :: chunks64 fuel (l.drop 64)

/-- The SHA-256 digest of a byte sequence, as eight 32-bit words. -/
def sha256Words (msg : List Nat) : Words8 :=
  let p := padMessage msg
  (chunks64 p.length p).foldl
    (fun st blk => compress st (schedule64 (toWords32 blk))) sha256H0

/-- Lowercase hexadecimal digit. -/
def hexChar (n : Nat) : Char :=
  if n < 10 then Char.ofNat (48 + n) else Char.ofNat (87 + n)

/-- The eight lowercase-hex characters of a 32-bit word, most significant
nibble first. -/
def wordHex (w : Nat) : List Char :=
  [hexChar ((w >>> 28) % 16), hexChar ((w >>> 24) % 16), hexChar ((w >>> 20) % 16),
   hexChar ((w >>> 16) % 16), hexChar ((w >>> 12) % 16), hexChar ((w >>> 8) % 16),
   hexChar ((w >>> 4) % 16), hexChar (w % 16)]

/-- Hex rendering of a digest. -/
def words8Hex (st : Words8) : List Char :=
  wordHex st.a ++ wordHex st.b ++ wordHex st.c ++ wordHex st.d ++
  wordHex st.e ++ wordHex st.f ++ wordHex st.g ++ wordHex st.h

/-- UTF-8 encoding of a character, the byte stream `hasher.update(content,
'utf8')` feeds to the hash. -/
def utf8Bytes (c : Char) : List Nat :=
  let n := c.toNat
  if n < 128 then [n]
  else if n < 2048 then [192 + n / 64, 128 + n % 64]
  else if n < 65536 then [224 + n / 4096, 128 + (n / 64) % 64, 128 + n % 64]
  else [240 + n / 262144, 128 + (n / 4096) % 64, 128 + (n / 64) % 64, 128 + n % 64]

/-- UTF-8 byte sequence of a string. -/
def strBytes (s : String) : List Nat := s.data.flatMap utf8Bytes

/-- The function `createHashFromContent` (`part_000` lines 13-17): the
lowercase-hex SHA-256 digest of the UTF-8 bytes of `content`. -/
def createHashFromContent (content : String) : String :=
  ⟨words8Hex (sha256Words (strBytes content))⟩

/-! The Sink collaborator and the bounded-retry discipline. -/

/-- The Sink collaborator of spec §6: `get(key)` and `set(key, bytes)` as
state-transformers over an abstract sink state `σ`; a failing call yields
a JavaScript error.  Statefulness lets a single sink value express both
stored content and per-attempt transient failures. -/
structure Sink (σ : Type) where
  get : String → σ → Except JsError String × σ
  set : String → String → σ → Except JsError Unit × σ

/-- Semantics of `pretry(fn, { retries })` (the p-retry collaborator): run
`fn` up to `retries + 1` times; a failure carrying the `AbortError` marker
stops retrying immediately and is propagated, any other failure is retried
until the budget is exhausted, after which the last failure is propagated. -/
def pretry {σ α : Type} (f : σ → Except JsError α × σ) : Nat → σ → Except JsError α × σ
  | 0, s => f s
  | n + 1, s =>
    match f s with
    | (.ok a, s') => (.ok a, s')
    | (.error e, s') => if e.isAbort then (.error e, s') else pretry f n s'

/-- The message of the `AbortError` thrown at `part_000` line 25. -/
def notFoundMsg (file : String) : String := "File \"" ++ file ++ "\" not found."

/-- The substring by which the source recognises the Sink's "object not
found" error class (`part_000` line 24). -/
def notFoundMarker : String := "No file with name"

/-- The `run(file)` closure of `fetchFeeds` (`part_000` lines 20-29): one
`sink.get` attempt; an error whose message contains `'No file with name'`
is converted into a `pretry.AbortError` carrying the offending file name,
any other error is rethrown unchanged. -/
def runOnce {σ : Type} (sink : Sink σ) (file : String) (s : σ) :
    Except JsError String × σ :=
  match sink.get file s with
  | (.ok c, s') => (.ok c, s')
  | (.error e, s') =>
    if includesSubstr e.message notFoundMarker then
      (.error ⟨notFoundMsg file, true⟩, s')
    else
      (.error e, s')

/-- The batch fetch `Promise.all(ids.map(file => pretry(run(file),
{ retries })))` of `part_000` lines 32-34, sequentialised in list order:
results come back in input order, and the first failing id's error fails
the whole batch with no partial result. -/
def fetchList {σ : Type} (sink : Sink σ) (retries : Nat) :
    List String → σ → Except JsError (List String) × σ
  | [], s => (.ok [], s)
  | f :: rest, s =>
    match pretry (runOnce sink f) retries s with
    | (.error e, s') => (.error e, s')
    | (.ok c, s') =>
      match fetchList sink retries rest s' with
      | (.error e, s'') => (.error e, s'')
      | (.ok cs, s'') => (.ok (c :: cs), s'')

/-- The `catch` clause of `fetchFeeds` (`part_000` lines 35-40): status
404 exactly when the inner error's message passes the
`/File ".*json" not found/` test, else 500. -/
def fetchBoom (e : JsError) : BoomError :=
  boomify e (some (if testFileJsonNotFound e.message then 404 else 500))
    (some "Unable to fetch 1 or more feeds from storage.")

/-- The function `fetchFeeds(sink, ids, retries)` (`part_000` lines
19-41). -/
def fetchFeeds {σ : Type} (sink : Sink σ) (ids : List String) (retries : Nat)
    (s : σ) : Except BoomError (List String) × σ :=
  match fetchList sink retries ids s with
  | (.ok cs, s') => (.ok cs, s')
  | (.error e, s') => (.error (fetchBoom e), s')

/-- The function `parseFeeds(rawFeeds)` (`part_000` lines 43-51): decode
every raw feed with the runtime's JSON decoder (`rawFeeds.map(JSON.parse)`
throws at the first undecodable element); a failure is reclassified with
message `'Unable to parse 1 or more feeds as JSON.'` (Boom default status
500) and the decode error as cause.  The decoder is the external
collaborator `jsonParse`. -/
def parseFeeds {φ : Type} (jsonParse : String → Except JsError φ)
    (rawFeeds : List String) : Except BoomError (List φ) :=
  match rawFeeds.mapM jsonParse with
  | .ok feeds => .ok feeds
  | .error e => .error (boomify e none (some "Unable to parse 1 or more feeds as JSON."))

/-- The function `bundleFeeds(feeds, type)` (`part_000` lines 53-71):
dispatch to the CSS bundler exactly when `type === 'css'`, otherwise to
the JS bundler; a bundler failure is reclassified (status 500) with the
bundler's error preserved as cause. -/
def bundleFeeds {φ : Type} (bundleCSS bundleJS : List φ → Except JsError String)
    (feeds : List φ) (type : String) : Except BoomError String :=
  if type = "css" then
    match bundleCSS feeds with
    | .ok r => .ok r
    | .error e => .error (boomify e none (some "Unable to bundle feeds as CSS."))
  else
    match bundleJS feeds with
    | .ok r => .ok r
    | .error e => .error (boomify e none (some "Unable to bundle feeds as JS."))

/-- The message of the `upload` catch clause (`part_000` line 78). -/
def uploadMsg (fileName : String) : String :=
  "Unable to upload bundle with fileName \"" ++ fileName ++ "\" to storage."

/-- The function `upload(sink, fileName, content, retries)` (`part_000`
lines 73-81): retry `sink.set` with the given budget; exhaustion is
reclassified (status 500) naming the target object. -/
def upload {σ : Type} (sink : Sink σ) (fileName content : String)
    (retries : Nat) (s : σ) : Except BoomError Unit × σ :=
  match pretry (sink.set fileName content) retries s with
  | (.ok _, s') => (.ok (), s')
  | (.error e, s') => (.error (boomify e none (some (uploadMsg fileName))), s')

/-- The failure modes of `bundleAndUpload`: the `assert` at `part_000`
lines 84-87 throws a Node `AssertionError`; every other failure is an
already classified Boom error from one of the pipeline stages. -/
inductive PipelineError where
  | assertFail (message : String)
  | boom (e : BoomError)
deriving DecidableEq, Repr

/-- The `{file, uri}` result object of `bundleAndUpload`. -/
structure BundleResult where
  file : String
  uri : String
deriving DecidableEq, Repr

/-- The assert message `Expected at least 1 feed id, but got ${feedIds}`;
a JavaScript array interpolates as its elements joined by commas (the
empty array interpolates as the empty string). -/
def assertMsg (feedIds : List String) : String :=
  "Expected at least 1 feed id, but got " ++ String.intercalate "," feedIds

/-- The orchestrator `bundleAndUpload({sink, type, feedIds, uri})`
(`part_000` lines 83-99): assert the id list non-empty, fetch with retry
budget 3, parse, bundle, name the artifact `hash.type`, upload with retry
budget 3, and return `{file, uri: uri + file}`.  Already classified
failures propagate unchanged. -/
def bundleAndUpload {σ φ : Type} (sink : Sink σ)
    (bundleCSS bundleJS : List φ → Except JsError String)
    (jsonParse : String → Except JsError φ)
    (type : String) (feedIds : List String) (uri : String) (s : σ) :
    Except PipelineError BundleResult × σ :=
  if feedIds.length > 0 then
    match fetchFeeds sink feedIds 3 s with
    | (.error e, s') => (.error (.boom e), s')
    | (.ok fetched, s') =>
      match parseFeeds jsonParse fetched with
      | .error e => (.error (.boom e), s')
      | .ok parsed =>
        match bundleFeeds bundleCSS bundleJS parsed type with
        | .error e => (.error (.boom e), s')
        | .ok content =>
          let fileName := createHashFromContent content ++ "." ++ type
          match upload sink fileName content 3 s' with
          | (.error e, s'') => (.error (.boom e), s'')
          | (.ok _, s'') => (.ok ⟨fileName, uri ++ fileName⟩, s'')
  else
    (.error (.assertFail (assertMsg feedIds)), s)

/-! Input validation: `parseBody`, the Joi `ids` schema and
`validateFeeds`. -/

/-- A JSON value as produced by the JavaScript runtime's JSON decoder
(request bodies are JSON texts, so `undefined` cannot occur).  Numeric
literals keep their lexeme: none of the modelled code inspects numeric
values. -/
inductive JsVal where
  | vstr (s : String)
  | vnum (lit : String)
  | vbool (b : Bool)
  | vnull
  | varr (elems : List JsVal)
  | vobj (fields : List (String × JsVal))

/-- Does a JSON value satisfy the item schema `Joi.string().required()`?
A Joi string must be a string and, by default, non-empty. -/
def isNonEmptyStr : JsVal → Bool
  | .vstr s => s != ""
  | _ => false

/-- Semantics of the Joi schema `ids` declared in `src/lib/schemas.js`
(`Joi.array().required().items(Joi.string().required()).sparse().min(1).max(100)`)
over JSON values: the value must be an array of 1 to 100 items, each item
a non-empty string.  The `sparse()` modifier concerns `undefined` holes,
which JSON values cannot contain, so it imposes nothing here; the external
library's convert-mode coercions are not modelled. -/
def validateIds (v : JsVal) : Except JsError JsVal :=
  match v with
  | .varr elems =>
    if elems.length < 1 then
      .error ⟨"\"value\" must contain at least 1 items", false⟩
    else if 100 < elems.length then
      .error ⟨"\"value\" must contain less than or equal to 100 items", false⟩
    else if elems.all isNonEmptyStr then
      .ok (.varr elems)
    else
      .error ⟨"\"value\" contains an item that is not a non-empty string", false⟩
  | _ => .error ⟨"\"value\" must be an array", false⟩

/-- The function `validateFeeds(feeds)` (`part_000` lines 112-125): run
the Joi `ids` schema and reclassify any validation error as status 400
`'Invalid feed data given in POST-body.'`. -/
def validateFeeds (feeds : JsVal) : Except BoomError JsVal :=
  match validateIds feeds with
  | .ok v => .ok v
  | .error e => .error (boomify e (some 400) (some "Invalid feed data given in POST-body."))

/-- The function `parseBody(req, res)` (`part_000` lines 101-110): decode
the raw request body with the external `body/json` collaborator (raw body
text fed to the runtime JSON decoder, here the parameter `bodyParse`); any
failure is reclassified as status 400 `'No feed data given in
POST-body.'`. -/
def parseBody (bodyParse : String → Except JsError JsVal) (rawBody : String) :
    Except BoomError JsVal :=
  match bodyParse rawBody with
  | .ok v => .ok v
  | .error e => .error (boomify e (some 400) (some "No feed data given in POST-body."))

/-- The string entries of a validated JSON array (after `validateFeeds`
succeeds every entry is a string). -/
def strListOf : JsVal → List String
  | .varr elems => elems.filterMap fun v =>
      match v with
      | .vstr s => some s
      | _ => none
  | _ => []

/-- Modelled from the spec: the HTTP adapter (the router module of this
repository, which is not under `src/`) handles a bundling request by
parsing the body with `parseBody`, validating the feed-id list with
`validateFeeds`, and only then invoking `bundleAndUpload` on the Sink —
spec §2 data flow "client → (validate feed-id list or raw feed payload) →
Orchestrator" and §8 "Validation boundary … rejected as MalformedInput
before any Sink access occurs".  The sink state is touched only by
`bundleAndUpload`. -/
def handleBundleRequest {σ φ : Type} (bodyParse : String → Except JsError JsVal)
    (sink : Sink σ) (bundleCSS bundleJS : List φ → Except JsError String)
    (jsonParse : String → Except JsError φ)
    (type rawBody uri : String) (s : σ) : Except PipelineError BundleResult × σ :=
  match parseBody bodyParse rawBody with
  | .error e => (.error (.boom e), s)
  | .ok v =>
    match validateFeeds v with
    | .error e => (.error (.boom e), s)
    | .ok v' => bundleAndUpload sink bundleCSS bundleJS jsonParse type (strListOf v') uri s

/-! Reference instantiations of the external collaborators, used to
instantiate hypotheses at concrete inputs. -/

/-- A reference in-memory Sink satisfying the spec §6 contract, in the
manner of `@asset-pipe/sink-mem`: the state is an association list of
stored objects, `set` creates or overwrites (newest binding first), and
`get` of an absent key fails with the asset-pipe sinks' "object not found"
message class (a message containing `'No file with name'`). -/
def memSink : Sink (List (String × String)) :=
  { get := fun file s =>
      match s.lookup file with
      | some v => (.ok v, s)
      | none => (.error ⟨"No file with name \"" ++ file ++ "\".", false⟩, s)
    set := fun file content s => (.ok (), (file, content) :: s) }

/-- A Sink whose `get` outcomes follow a script indexed by the attempt
number (the state counts attempts), expressing "fails transiently `k`
times and then succeeds" behaviours; its `set` always succeeds. -/
def scriptedGetSink (script : Nat → Except JsError String) : Sink Nat :=
  { get := fun _ n => (script n, n + 1)
    set := fun _ _ n => (.ok (), n) }

/-- A Sink whose `set` outcomes follow a script indexed by the attempt
number; its `get` always fails. -/
def scriptedSetSink (script : Nat → Except JsError Unit) : Sink Nat :=
  { get := fun _ n => (.error ⟨"get unavailable", false⟩, n)
    set := fun _ _ n => (script n, n + 1) }

/-- A transient (retriable) failure: not an abort and not of the Sink's
not-found message class. -/
def transientErr (e : JsError) : Prop :=
  e.isAbort = false ∧ includesSubstr e.message notFoundMarker = false

/-! A reference JSON decoder (the ECMA-404 grammar accepted by the
JavaScript runtime's `JSON.parse`), used to instantiate the decoder
parameters `jsonParse` / `bodyParse` at concrete inputs.  Recursive
descent over the character list, fuel-driven by the input length so that
every definition is structural and reduces in the kernel.  One deliberate
simplification, irrelevant to every claim: a `\uXXXX` escape denoting a
UTF-16 surrogate half is decoded to U+FFFD instead of pairing with its
partner. -/

/-- JSON insignificant whitespace. -/
def isJsonWs (c : Char) : Bool := c = ' ' || c = '\t' || c = '\n' || c = '\r'

/-- Drop leading JSON whitespace. -/
def skipWs : List Char → List Char
  | [] => []
  | c :: cs => if isJsonWs c then skipWs cs else c :: cs

/-- The decode error `JSON.parse` raises on truncated input. -/
def jsonEndErr : JsError := ⟨"Unexpected end of JSON input", false⟩

/-- The decode error `JSON.parse` raises on an unexpected character. -/
def jsonBadTok (c : Char) : JsError :=
  ⟨"Unexpected token " ++ String.mk [c] ++ " in JSON", false⟩

/-- Is the character a hexadecimal digit? -/
def isHexDigitCh (c : Char) : Bool :=
  c.isDigit || ('a' ≤ c && c ≤ 'f') || ('A' ≤ c && c ≤ 'F')

/-- Numeric value of a hexadecimal digit. -/
def hexVal (c : Char) : Nat :=
  if c.isDigit then c.toNat - 48
  else if 'a' ≤ c && c ≤ 'f' then c.toNat - 87
  else c.toNat - 55

/-- Decode the body of a JSON string literal (the opening quote already
consumed), returning the decoded characters and the rest of the input. -/
def parseJsonStrChars : Nat → List Char → Except JsError (List Char × List Char)
  | 0, _ => .error jsonEndErr
  | _ + 1, [] => .error jsonEndErr
  | fuel + 1, c :: cs =>
    if c = '"' then .ok ([], cs)
    else if c = '\\' then
      match cs with
      | [] => .error jsonEndErr
      | e :: cs' =>
        if e = '"' || e = '\\' || e = '/' then do
          let (r, rest) ← parseJsonStrChars fuel cs'
          .ok (e :: r, rest)
        else if e = 'b' then do
          let (r, rest) ← parseJsonStrChars fuel cs'
          .ok (Char.ofNat 8 :: r, rest)
        else if e = 'f' then do
          let (r, rest) ← parseJsonStrChars fuel cs'
          .ok (Char.ofNat 12 :: r, rest)
        else if e = 'n' then do
          let (r, rest) ← parseJsonStrChars fuel cs'
          .ok ('\n' :: r, rest)
        else if e = 'r' then do
          let (r, rest) ← parseJsonStrChars fuel cs'
          .ok ('\r' :: r, rest)
        else if e = 't' then do
          let (r, rest) ← parseJsonStrChars fuel cs'
          .ok ('\t' :: r, rest)
        else if e = 'u' then
          match cs' with
          | h1 :: h2 :: h3 :: h4 :: cs'' =>
            if isHexDigitCh h1 && isHexDigitCh h2 && isHexDigitCh h3 && isHexDigitCh h4 then do
              let n := ((hexVal h1 * 16 + hexVal h2) * 16 + hexVal h3) * 16 + hexVal h4
              let (r, rest) ← parseJsonStrChars fuel cs''
              .ok ((if 55296 ≤ n && n ≤ 57343 then Char.ofNat 65533 else Char.ofNat n) :: r, rest)
            else .error (jsonBadTok e)
          | _ => .error jsonEndErr
        else .error (jsonBadTok e)
    else if c.toNat < 32 then .error (jsonBadTok c)
    else do
      let (r, rest) ← parseJsonStrChars fuel cs
      .ok (c :: r, rest)

/-- Take a maximal run of decimal digits. -/
def takeDigits : List Char → List Char × List Char
  | [] => ([], [])
  | c :: cs =>
    if c.isDigit then
      let (d, r) := takeDigits cs
      (c :: d, r)
    else ([], c :: cs)

/-- Integer part of a JSON number: `0` or a nonzero digit followed by
digits. -/
def parseIntPart : List Char → Except JsError (List Char × List Char)
  | [] => .error jsonEndErr
  | c :: cs =>
    if c = '0' then .ok ([c], cs)
    else if c.isDigit then
      let (d, r) := takeDigits cs
      .ok (c :: d, r)
    else .error (jsonBadTok c)

/-- Optional fraction part of a JSON number. -/
def parseFracPart : List Char → Except JsError (List Char × List Char)
  | '.' :: cs =>
    (match takeDigits cs with
     | ([], []) => .error jsonEndErr
     | ([], c :: _) => .error (jsonBadTok c)
     | (d, r) => .ok ('.' :: d, r))
  | l => .ok ([], l)

/-- Optional exponent part of a JSON number. -/
def parseExpPart : List Char → Except JsError (List Char × List Char)
  | [] => .ok ([], [])
  | e :: cs =>
    if e = 'e' || e = 'E' then
      let (sgn, cs') :=
        match cs with
        | c :: rest => if c = '+' || c = '-' then ([c], rest) else (([] : List Char), cs)
        | [] => ([], [])
      match takeDigits cs' with
      | ([], []) => .error jsonEndErr
      | ([], c :: _) => .error (jsonBadTok c)
      | (d, r) => .ok (e :: (sgn ++ d), r)
    else .ok ([], e :: cs)

/-- A JSON number beginning at the given input (no leading minus). -/
def parseNumTail (l : List Char) : Except JsError (List Char × List Char) := do
  let (i, r1) ← parseIntPart l
  let (fr, r2) ← parseFracPart r1
  let (ex, r3) ← parseExpPart r2
  .ok (i ++ fr ++ ex, r3)

/-- Comma-separated JSON array items up to the closing bracket, given a
parser for one value. -/
def parseArrItems (pv : List Char → Except JsError (JsVal × List Char)) :
    Nat → List Char → Except JsError (List JsVal × List Char)
  | 0, _ => .error jsonEndErr
  | fuel + 1, l => do
    let (v, r) ← pv l
    match skipWs r with
    | ']' :: r' => .ok ([v], r')
    | ',' :: r' => do
      let (vs, r'') ← parseArrItems pv fuel r'
      .ok (v :: vs, r'')
    | c :: _ => .error (jsonBadTok c)
    | [] => .error jsonEndErr

/-- Comma-separated JSON object members up to the closing brace, given a
parser for one value. -/
def parseObjItems (pv : List Char → Except JsError (JsVal × List Char)) :
    Nat → List Char → Except JsError (List (String × JsVal) × List Char)
  | 0, _ => .error jsonEndErr
  | fuel + 1, l =>
    match skipWs l with
    | '"' :: cs => do
      let (k, r) ← parseJsonStrChars (cs.length + 1) cs
      match skipWs r with
      | ':' :: r' => do
        let (v, r'') ← pv r'
        (match skipWs r'' with
         | '}' :: r3 => .ok ([(String.mk k, v)], r3)
         | ',' :: r3 => do
           let (kvs, r4) ← parseObjItems pv fuel r3
           .ok ((String.mk k, v) :: kvs, r4)
         | c :: _ => .error (jsonBadTok c)
         | [] => .error jsonEndErr)
      | c :: _ => .error (jsonBadTok c)
      | [] => .error jsonEndErr
    | c :: _ => .error (jsonBadTok c)
    | [] => .error jsonEndErr

/-- One JSON value (leading whitespace allowed), fuel-driven. -/
def parseJsonValue : Nat → List Char → Except JsError (JsVal × List Char)
  | 0, _ => .error jsonEndErr
  | fuel + 1, l =>
    match skipWs l with
    | [] => .error jsonEndErr
    | c :: cs =>
      if c = '"' then do
        let (s, r) ← parseJsonStrChars (cs.length + 1) cs
        .ok (.vstr (String.mk s), r)
      else if c = '[' then
        match skipWs cs with
        | ']' :: r => .ok (.varr [], r)
        | rest => do
          let (vs, r) ← parseArrItems (parseJsonValue fuel) (rest.length + 1) rest
          .ok (.varr vs, r)
      else if c = '{' then
        match skipWs cs with
        | '}' :: r => .ok (.vobj [], r)
        | rest => do
          let (kvs, r) ← parseObjItems (parseJsonValue fuel) (rest.length + 1) rest
          .ok (.vobj kvs, r)
      else if c = 't' then
        match cs with
        | 'r' :: 'u' :: 'e' :: r => .ok (.vbool true, r)
        | _ => .error (jsonBadTok c)
      else if c = 'f' then
        match cs with
        | 'a' :: 'l' :: 's' :: 'e' :: r => .ok (.vbool false, r)
        | _ => .error (jsonBadTok c)
      else if c = 'n' then
        match cs with
        | 'u' :: 'l' :: 'l' :: r => .ok (.vnull, r)
        | _ => .error (jsonBadTok c)
      else if c = '-' then do
        let (num, r) ← parseNumTail cs
        .ok (.vnum (String.mk ('-' :: num)), r)
      else if c.isDigit then do
        let (num, r) ← parseNumTail (c :: cs)
        .ok (.vnum (String.mk num), r)
      else .error (jsonBadTok c)

/-- The reference JSON decoder: decode one value and require only
whitespace to follow. -/
def jsonValParse (s : String) : Except JsError JsVal := do
  let cs := s.data
  let (v, r) ← parseJsonValue (cs.length + 1) cs
  match skipWs r with
  | [] => .ok v
  | c :: _ => .error (jsonBadTok c)

/-! Derived notions used by the theorem statements. -/

/-- An attempt-indexed operation as a state-transformer over the attempt
counter: attempt `n` yields `out n` and increments the counter.  Both
scripted sinks' operations have this shape. -/
def stepFn {α : Type} (out : Nat → Except JsError α) : Nat → Except JsError α × Nat :=
  fun n => (out n, n + 1)

/-- The error transformation the `run` closure of `fetchFeeds` applies to
a single attempt's outcome: a not-found-class failure becomes an abort
carrying the file name, anything else passes through. -/
def markTransform (file : String) : Except JsError String → Except JsError String
  | .ok c => .ok c
  | .error e =>
    if includesSubstr e.message notFoundMarker then .error ⟨notFoundMsg file, true⟩
    else .error e

/-- Is the result a Node `AssertionError` escape from the `assert` at the
head of `bundleAndUpload`? -/
def isAssertFailure {α : Type} : Except PipelineError α → Bool
  | .error (.assertFail _) => true
  | _ => false

/-- Suffix test on strings. -/
def strEndsWith (s suf : String) : Bool := suf.data.isSuffixOf s.data

/-- Is the character a lowercase hexadecimal digit? -/
def isHexLowerChar (c : Char) : Bool := c.isDigit || ('a' ≤ c && c ≤ 'f')

/-- The StoredObjectName format asserted by the claim: a 64-character
lowercase-hex digest, a dot, and `js` or `css`. -/
def isClaimedStoredName (f : String) : Prop :=
  ∃ hx t : List Char, f.data = hx ++ '.' :: t ∧ hx.length = 64 ∧
    (∀ c ∈ hx, isHexLowerChar c = true) ∧ (t = "js".data ∨ t = "css".data)

/-- Is the JSON value a string? -/
def isStrVal : JsVal → Bool
  | .vstr _ => true
  | _ => false

/-- Concrete get script for witnesses: two transient I/O failures, then
success. -/
def wScriptOk : Nat → Except JsError String :=
  fun n => if n < 2 then .error ⟨"EIO: disk hiccup", false⟩ else .ok "RAWDATA"

/-- Concrete get script for witnesses: every attempt fails transiently. -/
def wScriptFail : Nat → Except JsError String :=
  fun _ => .error ⟨"EIO: disk hiccup", false⟩

/-- Concrete set script for witnesses: two failures, then success. -/
def wSetOk : Nat → Except JsError Unit :=
  fun n => if n < 2 then .error ⟨"EBUSY: device busy", false⟩ else .ok ()

/-- Concrete set script for witnesses: every attempt fails. -/
def wSetFail : Nat → Except JsError Unit :=
  fun _ => .error ⟨"EBUSY: device busy", false⟩

/-- Concrete decoder instantiation for witnesses: every raw feed decodes
to itself. -/
def idDecode : String → Except JsError String := fun s => .ok s

/-- Concrete JS bundler instantiation for witnesses: concatenate the
parsed feeds. -/
def joinBundler : List String → Except JsError String := fun l => .ok (String.join l)

/-- Concrete CSS bundler instantiation for witnesses: always fails. -/
def failBundler : List String → Except JsError String :=
  fun _ => .error ⟨"Mismatching parenthesis", false⟩

/-- Concrete bundler instantiation over decoded JSON values for
witnesses: always succeeds with fixed output. -/
def jsvalBundler : List JsVal → Except JsError String := fun _ => .ok "BUNDLE"

/-! Shared lemmas about the retry machinery. -/

/-- An attempt whose underlying `get` fails with the not-found message
class aborts `pretry` at once: one attempt happens (the state advances
only past that single `get`) whatever the retry budget. -/
theorem pretry_abort {σ : Type} (sink : Sink σ) (f : String) (r : Nat) (s s' : σ)
    (g : JsError) (hget : sink.get f s = (.error g, s'))
    (hmark : includesSubstr g.message notFoundMarker = true) :
    pretry (runOnce sink f) r s = (.error ⟨notFoundMsg f, true⟩, s') := by
  cases r with
  | zero => simp [pretry, runOnce, hget, hmark]
  | succ n => simp [pretry, runOnce, hget, hmark]

/-- Retry of an attempt-indexed operation that fails `k ≤ r` times without
aborting and then succeeds: the overall run succeeds after `k + 1`
attempts. -/
theorem pretry_step_ok {α : Type} (out : Nat → Except JsError α) :
    ∀ (k r n : Nat) (a : α), k ≤ r →
    (∀ i, i < k → ∃ e, out (n + i) = .error e ∧ e.isAbort = false) →
    out (n + k) = .ok a →
    pretry (stepFn out) r n = (.ok a, n + k + 1)
  | 0, r, n, a, _, _, hk => by
    have hk' : out n = .ok a := by simpa using hk
    cases r with
    | zero => simp [pretry, stepFn, hk']
    | succ r' => simp [pretry, stepFn, hk']
  | k + 1, r, n, a, hkr, hfail, hk => by
    cases r with
    | zero => omega
    | succ r' =>
      obtain ⟨e, he, hab⟩ := hfail 0 (Nat.succ_pos k)
      have he' : out n = .error e := by simpa using he
      have ih := pretry_step_ok out k r' (n + 1) a (by omega)
        (fun i hi => by
          obtain ⟨e', he'', hab'⟩ := hfail (i + 1) (by omega)
          exact ⟨e', by simpa [Nat.add_assoc, Nat.add_comm 1 i] using he'', hab'⟩)
        (by simpa [Nat.add_assoc, Nat.add_comm 1 k] using hk)
      have harith : n + 1 + k + 1 = n + (k + 1) + 1 := by omega
      rw [harith] at ih
      simp [pretry, stepFn, he', hab, ih]

/-- Retry of an attempt-indexed operation that fails on every one of its
`r + 1` attempts without aborting before the last: the overall run fails
with the last attempt's error. -/
theorem pretry_step_exhaust {α : Type} (out : Nat → Except JsError α) :
    ∀ (r n : Nat) (elast : JsError),
    (∀ i, i < r → ∃ e, out (n + i) = .error e ∧ e.isAbort = false) →
    out (n + r) = .error elast →
    pretry (stepFn out) r n = (.error elast, n + r + 1)
  | 0, n, elast, _, hlast => by
    have hlast' : out n = .error elast := by simpa using hlast
    simp [pretry, stepFn, hlast']
  | r + 1, n, elast, hfail, hlast => by
    obtain ⟨e, he, hab⟩ := hfail 0 (Nat.succ_pos r)
    have he' : out n = .error e := by simpa using he
    have ih := pretry_step_exhaust out r (n + 1) elast
      (fun i hi => by
        obtain ⟨e', he'', hab'⟩ := hfail (i + 1) (by omega)
        exact ⟨e', by simpa [Nat.add_assoc, Nat.add_comm 1 i] using he'', hab'⟩)
      (by simpa [Nat.add_assoc, Nat.add_comm 1 r] using hlast)
    have harith : n + 1 + r + 1 = n + (r + 1) + 1 := by omega
    rw [harith] at ih
    simp [pretry, stepFn, he', hab, ih]

/-- The `run` closure over a scripted-get sink is the attempt-indexed
operation obtained by post-composing the script with the not-found
transformation. -/
theorem runOnce_scripted (script : Nat → Except JsError String) (f : String) :
    runOnce (scriptedGetSink script) f = stepFn fun n => markTransform f (script n) := by
  funext n
  cases h : script n with
  | ok c => simp [runOnce, scriptedGetSink, stepFn, markTransform, h]
  | error e =>
    simp [runOnce, scriptedGetSink, stepFn, markTransform, h]
    split <;> rfl

/-- A transient error passes through the not-found transformation
unchanged. -/
theorem markTransform_transient (f : String) (e : JsError) (h : transientErr e) :
    markTransform f (.error e) = .error e := by
  simp [markTransform, h.2]

/-- A batch whose prefix succeeds and whose continuation fails, fails with
the continuation's error and final state. -/
theorem fetchList_append_err {σ : Type} (sink : Sink σ) (r : Nat) :
    ∀ (pre rest : List String) (s t u : σ) (vs : List String) (e : JsError),
    fetchList sink r pre s = (.ok vs, t) →
    fetchList sink r rest t = (.error e, u) →
    fetchList sink r (pre ++ rest) s = (.error e, u)
  | [], rest, s, t, u, vs, e, hpre, hrest => by
    simp only [fetchList, Prod.mk.injEq] at hpre
    obtain ⟨-, h2⟩ := hpre
    subst h2
    simpa using hrest
  | f :: pre', rest, s, t, u, vs, e, hpre, hrest => by
    rw [fetchList] at hpre
    rcases hp : pretry (runOnce sink f) r s with ⟨res, s₁⟩
    rw [hp] at hpre
    cases res with
    | error e' => simp at hpre
    | ok c =>
      rcases hq : fetchList sink r pre' s₁ with ⟨res', s₂⟩
      simp only [hq] at hpre
      cases res' with
      | error e' => simp at hpre
      | ok vs' =>
        simp only [Prod.mk.injEq, Except.ok.injEq] at hpre
        obtain ⟨-, h2⟩ := hpre
        subst h2
        have ih := fetchList_append_err sink r pre' rest s₁ s₂ u vs' e hq hrest
        rw [List.cons_append, fetchList, hp]
        simp [ih]

/-- A failing batch surfaces from `fetchFeeds` as the classified Boom
failure of the inner error. -/
theorem fetchFeeds_err {σ : Type} (sink : Sink σ) (ids : List String) (r : Nat)
    (s : σ) (e : JsError) (s₁ : σ) (h : fetchList sink r ids s = (.error e, s₁)) :
    fetchFeeds sink ids r s = (.error (fetchBoom e), s₁) := by
  simp [fetchFeeds, h]

/-! Claim C1. -/

/-- C1: for every Sink (and any retry budget), if some id's `get` fails
with an object-not-found error (the Sink's `'No file with name'` message
class) at the point the batch reaches it, then that id's fetch aborts at
once — the final sink state is the state right after that single `get`,
so no retry attempt is made for it whatever the budget — and the whole
`fetchFeeds` operation fails with the classified failure carrying that
id's not-found error; no partial-success result is returned. -/
theorem C1_abort_on_not_found {σ : Type} (sink : Sink σ) (retries : Nat)
    (pre rest : List String) (f : String) (s t t' : σ) (vs : List String) (g : JsError)
    (hpre : fetchList sink retries pre s = (.ok vs, t))
    (hget : sink.get f t = (.error g, t'))
    (hmark : includesSubstr g.message notFoundMarker = true) :
    fetchFeeds sink (pre ++ f :: rest) retries s =
      (.error (fetchBoom ⟨notFoundMsg f, true⟩), t') := by
  have habort := pretry_abort sink f retries t t' g hget hmark
  have hsingle : fetchList sink retries (f :: rest) t =
      (.error ⟨notFoundMsg f, true⟩, t') := by
    simp [fetchList, habort]
  exact fetchFeeds_err sink _ retries s _ t'
    (fetchList_append_err sink retries pre (f :: rest) s t t' vs _ hpre hsingle)

/-- Witness for C1: a concrete in-memory sink holding `a.json` but not
`missing.json`; the batch fails with the not-found classification and the
sink state shows the failing id was fetched exactly once. -/
theorem C1_witness :
    fetchFeeds memSink ["a.json", "missing.json"] 3 [("a.json", "RAWA")] =
      (.error (fetchBoom ⟨notFoundMsg "missing.json", true⟩), [("a.json", "RAWA")]) :=
  C1_abort_on_not_found memSink 3 ["a.json"] [] "missing.json"
    [("a.json", "RAWA")] [("a.json", "RAWA")] [("a.json", "RAWA")] ["RAWA"]
    ⟨"No file with name \"missing.json\".", false⟩ (by rfl) (by rfl) (by rfl)

/-! Claim C10, and the decomposition lemma for the wildcard pattern. -/

/-- A string that decomposes as `File "`, then a run of characters free of
line terminators, then `json" not found`, then anything, passes the
wildcard-dot regular-expression test. -/
theorem test_true_of_decomp (s : String) (w rest : List Char)
    (hs : s.data = "File \"".data ++ (w ++ ("json\" not found".data ++ rest)))
    (hw : ∀ c ∈ w, isLineTerm c = false) :
    testFileJsonNotFound s = true := by
  unfold testFileJsonNotFound
  simp only [List.any_eq_true, List.mem_range, Bool.and_eq_true]
  refine ⟨0, by omega, ?_, ?_⟩
  · rw [List.drop_zero, hs]
    exact List.isPrefixOf_iff_prefix.mpr (List.prefix_append _ _)
  · rw [List.drop_zero, hs, List.drop_left]
    refine ⟨w.length, ?_, ?_, ?_⟩
    · simp only [List.length_append]
      omega
    · rw [List.take_left]
      simp only [List.all_eq_true]
      intro c hc
      simp [hw c hc]
    · rw [List.drop_left]
      exact List.isPrefixOf_iff_prefix.mpr (List.prefix_append _ _)

/-- C10: the permanent-not-found classification fires precisely on the
message text.  (1) Any `get` failure whose message contains the substring
`'No file with name'` aborts that id's retries immediately — whatever the
underlying cause and whatever the budget.  (2) An absence signalled with
any other message is treated as transient and retried until the budget is
exhausted (`r + 1` attempts happen).  (3) A failing batch is classified by
testing the inner error's message against the wildcard pattern
`File ".*json" not found` — the message text alone fixes 404 versus 500.
(4) The dot is an unescaped wildcard: a not-found id named `xjson` earns
404 just like `x.json`, while `x.js` earns 500; and a plain `ENOENT`
message does not count as the not-found class. -/
theorem C10_message_driven_classification :
    (∀ {σ : Type} (sink : Sink σ) (f : String) (r : Nat) (s s' : σ) (g : JsError),
      sink.get f s = (.error g, s') →
      includesSubstr g.message notFoundMarker = true →
      pretry (runOnce sink f) r s = (.error ⟨notFoundMsg f, true⟩, s')) ∧
    (∀ (script : Nat → Except JsError String) (f : String) (r : Nat) (elast : JsError),
      (∀ i, i < r → ∃ e, script i = .error e ∧ transientErr e) →
      script r = .error elast → transientErr elast →
      pretry (runOnce (scriptedGetSink script) f) r 0 = (.error elast, r + 1)) ∧
    (∀ {σ : Type} (sink : Sink σ) (ids : List String) (r : Nat) (s : σ) (e : JsError) (s₁ : σ),
      fetchList sink r ids s = (.error e, s₁) →
      fetchFeeds sink ids r s = (.error (fetchBoom e), s₁) ∧
        (fetchBoom e).statusCode = (if testFileJsonNotFound e.message then 404 else 500)) ∧
    (testFileJsonNotFound (notFoundMsg "xjson") = true ∧
      testFileJsonNotFound (notFoundMsg "x.json") = true ∧
      testFileJsonNotFound (notFoundMsg "x.js") = false ∧
      includesSubstr "ENOENT: no such object" notFoundMarker = false) := by
  refine ⟨?_, ?_, ?_, by decide, by decide, by decide, by decide⟩
  · intro σ sink f r s s' g hget hmark
    exact pretry_abort sink f r s s' g hget hmark
  · intro script f r elast hfail hlast htrans
    rw [runOnce_scripted]
    have h := pretry_step_exhaust (fun n => markTransform f (script n)) r 0 elast
      (fun i hi => by
        obtain ⟨e, he, ht⟩ := hfail i hi
        refine ⟨e, ?_, ht.1⟩
        simp only [Nat.zero_add, he]
        exact markTransform_transient f e ht)
      (by simp only [Nat.zero_add, hlast]; exact markTransform_transient f elast htrans)
    simpa using h
  · intro σ sink ids r s e s₁ h
    exact ⟨fetchFeeds_err sink ids r s e s₁ h, by simp [fetchBoom, boomify]⟩

/-- Witness for C10: the abort clause at a concrete sink, the
transient-retry clause at a concrete always-failing script (four attempts
for budget 3), and the message-driven status at a concrete failed batch. -/
theorem C10_witness :
    pretry (runOnce memSink "xjson") 5 [] =
      (.error ⟨notFoundMsg "xjson", true⟩, []) ∧
    pretry (runOnce (scriptedGetSink wScriptFail) "f.json") 3 0 =
      (.error ⟨"EIO: disk hiccup", false⟩, 4) ∧
    fetchFeeds memSink ["xjson"] 3 [] =
      (.error (fetchBoom ⟨notFoundMsg "xjson", true⟩), []) ∧
    (fetchBoom ⟨notFoundMsg "xjson", true⟩).statusCode =
      (if testFileJsonNotFound (notFoundMsg "xjson") then 404 else 500) := by
  obtain ⟨h1, h2, h3, -⟩ := C10_message_driven_classification
  have hb := h3 memSink ["xjson"] 3 [] ⟨notFoundMsg "xjson", true⟩ [] (by rfl)
  exact ⟨h1 memSink "xjson" 5 [] [] ⟨"No file with name \"xjson\".", false⟩ rfl (by decide),
    h2 wScriptFail "f.json" 3 ⟨"EIO: disk hiccup", false⟩
      (fun i _ => ⟨⟨"EIO: disk hiccup", false⟩, rfl, rfl, by decide⟩) rfl ⟨rfl, by decide⟩,
    hb.1, hb.2⟩

/-! Claim C2: counterexample and amended form. -/

/-- C2 fails as stated: the id `xjson` is not a `*.json` reference (it
does not end in `.json`), yet when it is absent from the Sink the
classified failure carries status 404, not the claimed 500 — the regexp's
dot is a wildcard, so any not-found name ending in `json` matches. -/
theorem C2_counterexample :
    fetchFeeds memSink ["xjson"] 3 [] =
      (.error ⟨404,
        "Unable to fetch 1 or more feeds from storage.: File \"xjson\" not found.",
        ⟨"File \"xjson\" not found.", true⟩⟩, []) ∧
    strEndsWith "xjson" ".json" = false := by
  exact ⟨by rfl, by decide⟩

/-- C2 (amended): whenever `fetchFeeds` fails, the classified failure has
status 404 exactly when the failing id's error message contains a match of
the wildcard pattern `File ".*json" not found` — in particular for every
not-found id whose name ends in `json`, whether or not a dot precedes it —
and status 500 otherwise; its message prefixes `'Unable to fetch 1 or more
feeds from storage.'` onto the original per-id message, and the original
per-id error is preserved as the cause. -/
theorem C2_amended :
    (∀ {σ : Type} (sink : Sink σ) (ids : List String) (r : Nat) (s : σ) (e : JsError) (s₁ : σ),
      fetchList sink r ids s = (.error e, s₁) →
      ∃ b, fetchFeeds sink ids r s = (.error b, s₁) ∧
        b.statusCode = (if testFileJsonNotFound e.message then 404 else 500) ∧
        b.cause = e ∧
        b.message = "Unable to fetch 1 or more feeds from storage." ++
          (if e.message = "" then "" else ": " ++ e.message)) ∧
    (∀ (fl : String) (w : List Char), fl.data = w ++ "json".data →
      (∀ c ∈ w, isLineTerm c = false) →
      testFileJsonNotFound (notFoundMsg fl) = true) := by
  constructor
  · intro σ sink ids r s e s₁ h
    refine ⟨fetchBoom e, fetchFeeds_err sink ids r s e s₁ h, ?_, ?_, ?_⟩
    · simp [fetchBoom, boomify]
    · simp [fetchBoom, boomify]
    · by_cases he : e.message = "" <;>
        simp [fetchBoom, boomify, he, ← String.append_assoc]
  · intro fl w hfl hw
    apply test_true_of_decomp (notFoundMsg fl) w (".".data)
    · have h1 : (notFoundMsg fl).data = "File \"".data ++ (fl.data ++ "\" not found.".data) := by
        simp [notFoundMsg, String.data_append]
      rw [h1, hfl]
      have h2 : "json".data ++ "\" not found.".data =
          "json\" not found".data ++ ".".data := by decide
      simp only [List.append_assoc, h2]
    · exact hw

/-- Witness for C2 (amended): a concrete failed batch for a not-found id
named `data.json`, classified 404 with message and cause preserved; and
the pattern lemma applied at the dotless name `xjson`. -/
theorem C2_amended_witness :
    (∃ b, fetchFeeds memSink ["data.json"] 3 [] = (.error b, []) ∧
      b.statusCode =
        (if testFileJsonNotFound (JsError.mk (notFoundMsg "data.json") true).message
         then 404 else 500) ∧
      b.cause = ⟨notFoundMsg "data.json", true⟩ ∧
      b.message = "Unable to fetch 1 or more feeds from storage." ++
        (if (JsError.mk (notFoundMsg "data.json") true).message = ""
         then "" else ": " ++ (JsError.mk (notFoundMsg "data.json") true).message)) ∧
    testFileJsonNotFound (notFoundMsg "xjson") = true := by
  obtain ⟨h1, h2⟩ := C2_amended
  exact ⟨h1 memSink ["data.json"] 3 [] ⟨notFoundMsg "data.json", true⟩ [] (by rfl),
    h2 "xjson" ("x".data) (by decide) (by decide)⟩

/-! Claim C3. -/

/-- C3: bounded retry, for the per-id fetch and for the upload, against a
Sink whose scripted operation fails transiently on its first attempts.
If it fails exactly `k < maxRetries` times and then succeeds, the overall
operation succeeds (after `k + 1` attempts); if it fails on all
`maxRetries + 1` attempts, the overall operation fails with the classified
failure — for the upload, the one naming the target object name. -/
theorem C3_bounded_retry (script : Nat → Except JsError String)
    (setScript : Nat → Except JsError Unit) (f name content : String)
    (r k : Nat) (c : String) (elast : JsError) :
    ((∀ i, i < k → ∃ e, script i = .error e ∧ transientErr e) →
      script k = .ok c → k < r →
      fetchFeeds (scriptedGetSink script) [f] r 0 = (.ok [c], k + 1)) ∧
    ((∀ i, i < r → ∃ e, script i = .error e ∧ transientErr e) →
      script r = .error elast → transientErr elast →
      fetchFeeds (scriptedGetSink script) [f] r 0 = (.error (fetchBoom elast), r + 1)) ∧
    ((∀ i, i < k → ∃ e, setScript i = .error e ∧ e.isAbort = false) →
      setScript k = .ok () → k < r →
      upload (scriptedSetSink setScript) name content r 0 = (.ok (), k + 1)) ∧
    ((∀ i, i < r → ∃ e, setScript i = .error e ∧ e.isAbort = false) →
      setScript r = .error elast →
      upload (scriptedSetSink setScript) name content r 0 =
        (.error (boomify elast none (some (uploadMsg name))), r + 1)) := by
  refine ⟨?_, ?_, ?_, ?_⟩
  · intro hfail hk hkr
    have hp := pretry_step_ok (fun n => markTransform f (script n)) k r 0 c
      (Nat.le_of_lt hkr)
      (fun i hi => by
        obtain ⟨e, he, ht⟩ := hfail i hi
        exact ⟨e, by simp only [Nat.zero_add, he]; exact markTransform_transient f e ht, ht.1⟩)
      (by simp only [Nat.zero_add, hk]; rfl)
    have hq : pretry (runOnce (scriptedGetSink script) f) r 0 = (.ok c, k + 1) := by
      rw [runOnce_scripted]
      simpa using hp
    simp [fetchFeeds, fetchList, hq]
  · intro hfail hlast htrans
    have hp := pretry_step_exhaust (fun n => markTransform f (script n)) r 0 elast
      (fun i hi => by
        obtain ⟨e, he, ht⟩ := hfail i hi
        exact ⟨e, by simp only [Nat.zero_add, he]; exact markTransform_transient f e ht, ht.1⟩)
      (by simp only [Nat.zero_add, hlast]; exact markTransform_transient f elast htrans)
    have hq : pretry (runOnce (scriptedGetSink script) f) r 0 = (.error elast, r + 1) := by
      rw [runOnce_scripted]
      simpa using hp
    simp [fetchFeeds, fetchList, hq]
  · intro hfail hk hkr
    have hp := pretry_step_ok setScript k r 0 () (Nat.le_of_lt hkr)
      (fun i hi => by simpa using hfail i hi)
      (by simpa using hk)
    have hq : pretry ((scriptedSetSink setScript).set name content) r 0 = (.ok (), k + 1) := by
      simpa using hp
    simp [upload, hq]
  · intro hfail hlast
    have hp := pretry_step_exhaust setScript r 0 elast
      (fun i hi => by simpa using hfail i hi)
      (by simpa using hlast)
    have hq : pretry ((scriptedSetSink setScript).set name content) r 0 =
        (.error elast, r + 1) := by
      simpa using hp
    simp [upload, hq]

/-- Witness for C3: scripts failing twice then succeeding (budget 3 —
success after three attempts), and scripts failing on all four attempts
(budget 3 — classified failure, for the upload naming `bundle.js`). -/
theorem C3_witness :
    fetchFeeds (scriptedGetSink wScriptOk) ["feed.json"] 3 0 = (.ok ["RAWDATA"], 3) ∧
    fetchFeeds (scriptedGetSink wScriptFail) ["feed.json"] 3 0 =
      (.error (fetchBoom ⟨"EIO: disk hiccup", false⟩), 4) ∧
    upload (scriptedSetSink wSetOk) "bundle.js" "bundled bytes" 3 0 = (.ok (), 3) ∧
    upload (scriptedSetSink wSetFail) "bundle.js" "bundled bytes" 3 0 =
      (.error (boomify ⟨"EBUSY: device busy", false⟩ none (some (uploadMsg "bundle.js"))), 4) := by
  obtain ⟨h1, h2, h3, -⟩ := C3_bounded_retry wScriptFail wSetOk "feed.json" "bundle.js"
    "bundled bytes" 3 2 "RAWDATA" ⟨"EIO: disk hiccup", false⟩
  obtain ⟨h1', -, -, h4⟩ := C3_bounded_retry wScriptOk wSetFail "feed.json" "bundle.js"
    "bundled bytes" 3 2 "RAWDATA" ⟨"EBUSY: device busy", false⟩
  refine ⟨?_, ?_, ?_, ?_⟩
  · exact h1' (fun i hi => ⟨⟨"EIO: disk hiccup", false⟩, by simp [wScriptOk, hi], rfl, by decide⟩)
      (by rfl) (by decide)
  · exact h2 (fun i _ => ⟨⟨"EIO: disk hiccup", false⟩, rfl, rfl, by decide⟩)
      (by rfl) ⟨rfl, by decide⟩
  · exact h3 (fun i hi => ⟨⟨"EBUSY: device busy", false⟩, by simp [wSetOk, hi], rfl⟩)
      (by rfl) (by decide)
  · exact h4 (fun i _ => ⟨⟨"EBUSY: device busy", false⟩, rfl, rfl⟩) (by rfl)

/-! Claim C5: counterexample and amended form. -/

/-- A decoder run over a list whose prefix decodes and whose next element
does not, fails with that element's error. -/
theorem mapM_ok_prefix_err {φ : Type} (jp : String → Except JsError φ) :
    ∀ (pre : List String) (f : String) (rest : List String) (e : JsError),
    (∀ x ∈ pre, ∃ v, jp x = .ok v) → jp f = .error e →
    (pre ++ f :: rest).mapM jp = .error e
  | [], f, rest, e, _, hf => by
    rw [List.nil_append, List.mapM_cons, hf]
    rfl
  | x :: pre', f, rest, e, hpre, hf => by
    obtain ⟨v, hv⟩ := hpre x (List.mem_cons_self x pre')
    have ih := mapM_ok_prefix_err jp pre' f rest e
      (fun y hy => hpre y (List.mem_cons_of_mem x hy)) hf
    rw [List.cons_append, List.mapM_cons, hv]
    show (List.mapM jp (pre' ++ f :: rest) >>= fun vs => pure (v :: vs)) = Except.error e
    rw [ih]
    rfl

/-- C5 fails as stated: the raw feed `{` is not valid JSON text (the
reference decoder rejects it as truncated), and `parseFeeds` then fails —
but with a Boom-default 500 classification, a server error, not the
claimed client-facing bad request (400).  The repository's own test
expects exactly this 500. -/
theorem C5_counterexample :
    parseFeeds jsonValParse ["\x7b"] =
      .error ⟨500, "Unable to parse 1 or more feeds as JSON.: Unexpected end of JSON input",
        jsonEndErr⟩ ∧ (500 : Nat) ≠ 400 :=
  ⟨by rfl, by decide⟩

/-- C5 (amended): for every decoder and every raw-feed sequence in which
some element fails to decode, `parseFeeds` fails at the first such element
with a classified failure of status 500 (the Boom default — a server
error, not a bad request), whose message states it was unable to parse one
or more feeds, which preserves the original decode error as the cause, and
which returns no partial result; and a `bundleAndUpload` run whose fetch
produced exactly those raw feeds fails with that same classified failure,
the sink state unchanged past the fetch. -/
theorem C5_parse_failure_amended :
    (∀ {φ : Type} (jp : String → Except JsError φ) (pre : List String) (f : String)
      (rest : List String) (e : JsError),
      (∀ x ∈ pre, ∃ v, jp x = .ok v) → jp f = .error e →
      ∃ b, parseFeeds jp (pre ++ f :: rest) = .error b ∧
        b.statusCode = 500 ∧ b.cause = e ∧
        b.message = "Unable to parse 1 or more feeds as JSON." ++
          (if e.message = "" then "" else ": " ++ e.message)) ∧
    (∀ {σ φ : Type} (sink : Sink σ) (bcss bjs : List φ → Except JsError String)
      (jp : String → Except JsError φ) (type uriStr : String) (ids : List String)
      (s s₁ : σ) (raws : List String) (b : BoomError),
      0 < ids.length →
      fetchList sink 3 ids s = (.ok raws, s₁) →
      parseFeeds jp raws = .error b →
      bundleAndUpload sink bcss bjs jp type ids uriStr s = (.error (.boom b), s₁)) := by
  constructor
  · intro φ jp pre f rest e hpre hf
    have hm := mapM_ok_prefix_err jp pre f rest e hpre hf
    refine ⟨boomify e none (some "Unable to parse 1 or more feeds as JSON."), ?_, ?_, ?_, ?_⟩
    · simp only [parseFeeds]
      rw [hm]
    · simp [boomify]
    · simp [boomify]
    · by_cases he : e.message = "" <;> simp [boomify, he, ← String.append_assoc]
  · intro σ φ sink bcss bjs jp type uriStr ids s s₁ raws b hlen hfl hp
    have hff : fetchFeeds sink ids 3 s = (.ok raws, s₁) := by simp [fetchFeeds, hfl]
    simp [bundleAndUpload, hlen, hff, hp]

/-- Witness for C5 (amended): the reference decoder over a concrete list
whose second element is the truncated text `{`, and the corresponding
`bundleAndUpload` failure over a concrete in-memory sink. -/
theorem C5_witness :
    (∃ b, parseFeeds jsonValParse (["[]"] ++ "\x7b" :: ["null"]) = .error b ∧
      b.statusCode = 500 ∧ b.cause = jsonEndErr ∧
      b.message = "Unable to parse 1 or more feeds as JSON." ++
        (if jsonEndErr.message = "" then "" else ": " ++ jsonEndErr.message)) ∧
    bundleAndUpload memSink jsvalBundler jsvalBundler jsonValParse "js" ["bad.json"]
      "http://h/" [("bad.json", "\x7b")] =
      (.error (.boom (boomify jsonEndErr none
        (some "Unable to parse 1 or more feeds as JSON."))), [("bad.json", "\x7b")]) := by
  obtain ⟨h1, h2⟩ := C5_parse_failure_amended
  exact ⟨h1 jsonValParse ["[]"] "\x7b" ["null"] jsonEndErr
      (fun x hx => by
        simp only [List.mem_singleton] at hx
        exact ⟨.varr [], by subst hx; rfl⟩)
      (by rfl),
    h2 memSink jsvalBundler jsvalBundler jsonValParse "js" "http://h/" ["bad.json"]
      [("bad.json", "\x7b")] [("bad.json", "\x7b")] ["\x7b"] _ (by decide) (by rfl) (by rfl)⟩

/-! Claim C7. -/

/-- C7: `bundleFeeds` dispatches to the CSS bundler exactly when the
asset type equals `css` and to the JS bundler for every other type (a
permissive fallback, not an error); a bundler success passes through
unchanged, and a bundler failure surfaces as a classified failure of
status 500 whose message is `'Unable to bundle feeds as CSS.'` or
`'Unable to bundle feeds as JS.'` respectively (prefixed onto the cause's
message), with the bundler's own error preserved as the cause — the
caller sees only the classified Boom failure, not the bundler's error
type. -/
theorem C7_bundleFeeds_dispatch {φ : Type} (bcss bjs : List φ → Except JsError String)
    (feeds : List φ) (type : String) :
    (∀ out, bcss feeds = .ok out → type = "css" →
      bundleFeeds bcss bjs feeds type = .ok out) ∧
    (∀ e, bcss feeds = .error e → type = "css" →
      bundleFeeds bcss bjs feeds type =
        .error ⟨500, "Unable to bundle feeds as CSS." ++
          (if e.message = "" then "" else ": " ++ e.message), e⟩) ∧
    (∀ out, bjs feeds = .ok out → type ≠ "css" →
      bundleFeeds bcss bjs feeds type = .ok out) ∧
    (∀ e, bjs feeds = .error e → type ≠ "css" →
      bundleFeeds bcss bjs feeds type =
        .error ⟨500, "Unable to bundle feeds as JS." ++
          (if e.message = "" then "" else ": " ++ e.message), e⟩) := by
  refine ⟨?_, ?_, ?_, ?_⟩
  · intro out hb ht
    simp [bundleFeeds, ht, hb]
  · intro e hb ht
    by_cases he : e.message = "" <;>
      simp [bundleFeeds, ht, hb, boomify, he, ← String.append_assoc]
  · intro out hb ht
    simp [bundleFeeds, ht, hb]
  · intro e hb ht
    by_cases he : e.message = "" <;>
      simp [bundleFeeds, ht, hb, boomify, he, ← String.append_assoc]

/-- Witness for C7: concrete bundlers at the types `css`, `js` and the
fallback type `png` (which dispatches to the JS bundler even though the
CSS bundler would fail). -/
theorem C7_witness :
    bundleFeeds joinBundler joinBundler ["body"] "css" = .ok "body" ∧
    bundleFeeds failBundler joinBundler ["body"] "css" =
      .error ⟨500, "Unable to bundle feeds as CSS." ++
        (if (JsError.mk "Mismatching parenthesis" false).message = ""
         then "" else ": " ++ (JsError.mk "Mismatching parenthesis" false).message),
        ⟨"Mismatching parenthesis", false⟩⟩ ∧
    bundleFeeds failBundler joinBundler ["body"] "png" = .ok "body" ∧
    bundleFeeds joinBundler failBundler ["body"] "js" =
      .error ⟨500, "Unable to bundle feeds as JS." ++
        (if (JsError.mk "Mismatching parenthesis" false).message = ""
         then "" else ": " ++ (JsError.mk "Mismatching parenthesis" false).message),
        ⟨"Mismatching parenthesis", false⟩⟩ := by
  refine ⟨?_, ?_, ?_, ?_⟩
  · exact (C7_bundleFeeds_dispatch joinBundler joinBundler ["body"] "css").1 "body" rfl rfl
  · exact (C7_bundleFeeds_dispatch failBundler joinBundler ["body"] "css").2.1
      ⟨"Mismatching parenthesis", false⟩ rfl rfl
  · exact (C7_bundleFeeds_dispatch failBundler joinBundler ["body"] "png").2.2.1
      "body" rfl (by decide)
  · exact (C7_bundleFeeds_dispatch joinBundler failBundler ["body"] "js").2.2.2
      ⟨"Mismatching parenthesis", false⟩ rfl (by decide)

/-! Claim C8. -/

/-- C8: `bundleAndUpload` invoked with the empty feed-id list fails at
once with the precondition-violation assertion (message `'Expected at
least 1 feed id, but got '`), the sink state untouched — no fetch, parse,
bundle or upload happens; and under the precondition that the list is
non-empty the assertion branch is unreachable: no outcome of the pipeline
is an assertion failure. -/
theorem C8_assert_nonempty {σ φ : Type} (sink : Sink σ)
    (bcss bjs : List φ → Except JsError String) (jp : String → Except JsError φ)
    (type uriStr : String) (s : σ) :
    bundleAndUpload sink bcss bjs jp type [] uriStr s =
      (.error (.assertFail (assertMsg [])), s) ∧
    assertMsg [] = "Expected at least 1 feed id, but got " ∧
    ∀ (feedIds : List String), feedIds ≠ [] →
      isAssertFailure (bundleAndUpload sink bcss bjs jp type feedIds uriStr s).1 = false := by
  refine ⟨by simp [bundleAndUpload], by decide, ?_⟩
  intro feedIds hne
  have hlen : feedIds.length > 0 := List.length_pos.mpr hne
  rw [bundleAndUpload, if_pos hlen]
  rcases hf : fetchFeeds sink feedIds 3 s with ⟨res, s'⟩
  cases res with
  | error e => simp [hf, isAssertFailure]
  | ok fetched =>
    cases hp : parseFeeds jp fetched with
    | error e => simp [hf, hp, isAssertFailure]
    | ok parsed =>
      cases hb : bundleFeeds bcss bjs parsed type with
      | error e => simp [hf, hp, hb, isAssertFailure]
      | ok content =>
        rcases hu : upload sink (createHashFromContent content ++ "." ++ type) content 3 s'
          with ⟨ru, s''⟩
        cases ru with
        | error e => simp [hf, hp, hb, hu, isAssertFailure]
        | ok u => simp [hf, hp, hb, hu, isAssertFailure]

/-- Witness for C8: the empty list against a concrete in-memory sink, and
a concrete non-empty invocation whose outcome is not an assertion
failure. -/
theorem C8_witness :
    bundleAndUpload memSink failBundler joinBundler idDecode "js" [] "http://h/" [] =
      (.error (.assertFail (assertMsg [])), []) ∧
    isAssertFailure (bundleAndUpload memSink failBundler joinBundler idDecode "js"
      ["nope.json"] "http://h/" []).1 = false := by
  obtain ⟨h1, -, h3⟩ :=
    C8_assert_nonempty memSink failBundler joinBundler idDecode "js" "http://h/" []
  exact ⟨h1, h3 ["nope.json"] (by decide)⟩

/-! Claim C6. -/

/-- A run of JSON whitespace skips to nothing. -/
theorem skipWs_of_all (l : List Char) (h : l.all isJsonWs = true) : skipWs l = [] := by
  induction l with
  | nil => rfl
  | cons c cs ih =>
    simp only [List.all_cons, Bool.and_eq_true] at h
    simp [skipWs, h.1, ih h.2]

/-- The reference decoder rejects every blank (all-whitespace, possibly
empty) text as truncated input. -/
theorem jsonValParse_blank (s : String) (h : s.data.all isJsonWs = true) :
    jsonValParse s = .error jsonEndErr := by
  have hskip := skipWs_of_all s.data h
  simp only [jsonValParse, parseJsonValue, hskip]
  rfl

/-- C6: the validation boundary.  (1) `parseBody` reclassifies every body
decode failure as status 400, preserving the cause.  (2) An empty or
blank request body fails to decode and is hence rejected with 400.
(3) The empty feed-id list is rejected with 400.  (4) A feed-id list
containing a non-string entry is rejected with 400.  (5) A value is
accepted by `validateFeeds` exactly when it is an array of 1 to 100
entries, each a non-empty string.  (6) In the request flow, a body or
validation rejection happens before any Sink access: the pipeline is not
entered and the sink state is returned untouched. -/
theorem C6_validation_boundary :
    (∀ (bp : String → Except JsError JsVal) (rawBody : String) (e : JsError),
      bp rawBody = .error e →
      ∃ b, parseBody bp rawBody = .error b ∧ b.statusCode = 400 ∧ b.cause = e) ∧
    (∀ rawBody : String, rawBody.data.all isJsonWs = true →
      ∃ b, parseBody jsonValParse rawBody = .error b ∧ b.statusCode = 400) ∧
    (∃ b, validateFeeds (.varr []) = .error b ∧ b.statusCode = 400) ∧
    (∀ (pre : List JsVal) (v : JsVal) (rest : List JsVal), isStrVal v = false →
      ∃ b, validateFeeds (.varr (pre ++ v :: rest)) = .error b ∧ b.statusCode = 400) ∧
    (∀ v : JsVal, (validateFeeds v).isOk = true ↔
      ∃ elems, v = .varr elems ∧ 1 ≤ elems.length ∧ elems.length ≤ 100 ∧
        ∀ x ∈ elems, ∃ str, x = .vstr str ∧ str ≠ "") ∧
    (∀ {σ φ : Type} (bp : String → Except JsError JsVal) (sink : Sink σ)
      (bcss bjs : List φ → Except JsError String) (jp : String → Except JsError φ)
      (type rawBody uriStr : String) (s : σ) (b : BoomError),
      (parseBody bp rawBody = .error b ∨
        (∃ v, parseBody bp rawBody = .ok v ∧ validateFeeds v = .error b)) →
      handleBundleRequest bp sink bcss bjs jp type rawBody uriStr s =
        (.error (.boom b), s)) := by
  refine ⟨?_, ?_, ?_, ?_, ?_, ?_⟩
  · intro bp rawBody e h
    exact ⟨boomify e (some 400) (some "No feed data given in POST-body."),
      by simp [parseBody, h], rfl, rfl⟩
  · intro rawBody h
    exact ⟨boomify jsonEndErr (some 400) (some "No feed data given in POST-body."),
      by simp [parseBody, jsonValParse_blank rawBody h], rfl⟩
  · exact ⟨boomify ⟨"\"value\" must contain at least 1 items", false⟩ (some 400)
      (some "Invalid feed data given in POST-body."),
      by simp [validateFeeds, validateIds], rfl⟩
  · intro pre v rest hv
    have hmem : isNonEmptyStr v = false := by
      cases v <;> simp_all [isStrVal, isNonEmptyStr]
    have hall : (pre ++ v :: rest).all isNonEmptyStr = false := by
      simp [List.all_append, hmem]
    have hlen1 : ¬ (pre ++ v :: rest).length < 1 := by simp
    by_cases hlen : 100 < (pre ++ v :: rest).length
    · exact ⟨boomify ⟨"\"value\" must contain less than or equal to 100 items", false⟩
        (some 400) (some "Invalid feed data given in POST-body."),
        by simp only [validateFeeds, validateIds]; rw [if_neg hlen1, if_pos hlen], rfl⟩
    · exact ⟨boomify ⟨"\"value\" contains an item that is not a non-empty string", false⟩
        (some 400) (some "Invalid feed data given in POST-body."),
        by
          simp only [validateFeeds, validateIds]
          rw [if_neg hlen1, if_neg hlen, if_neg (by simp [hall])],
        rfl⟩
  · intro v
    constructor
    · intro h
      cases v with
      | varr elems =>
        by_cases h1 : elems.length < 1
        · simp [validateFeeds, validateIds, h1, Except.isOk, Except.toBool] at h
        · by_cases h2 : 100 < elems.length
          · simp [validateFeeds, validateIds, h1, h2, Except.isOk, Except.toBool] at h
          · by_cases h3 : elems.all isNonEmptyStr = true
            · refine ⟨elems, rfl, by omega, by omega, ?_⟩
              intro x hx
              have hne := List.all_eq_true.mp h3 x hx
              cases x with
              | vstr str => exact ⟨str, rfl, by simpa [isNonEmptyStr] using hne⟩
              | vnum lit => simp [isNonEmptyStr] at hne
              | vbool b => simp [isNonEmptyStr] at hne
              | vnull => simp [isNonEmptyStr] at hne
              | varr l => simp [isNonEmptyStr] at hne
              | vobj l => simp [isNonEmptyStr] at hne
            · simp [validateFeeds, validateIds, h1, h2, h3, Except.isOk, Except.toBool] at h
      | vstr s => simp [validateFeeds, validateIds, Except.isOk, Except.toBool] at h
      | vnum lit => simp [validateFeeds, validateIds, Except.isOk, Except.toBool] at h
      | vbool b => simp [validateFeeds, validateIds, Except.isOk, Except.toBool] at h
      | vnull => simp [validateFeeds, validateIds, Except.isOk, Except.toBool] at h
      | vobj l => simp [validateFeeds, validateIds, Except.isOk, Except.toBool] at h
    · rintro ⟨elems, rfl, hlo, hhi, hstr⟩
      have h1 : ¬ elems.length < 1 := by omega
      have h2 : ¬ 100 < elems.length := by omega
      have h3 : elems.all isNonEmptyStr = true := List.all_eq_true.mpr (fun x hx => by
        obtain ⟨str, rfl, hne⟩ := hstr x hx
        simpa [isNonEmptyStr] using hne)
      simp [validateFeeds, validateIds, h1, h2, h3, Except.isOk, Except.toBool]
  · intro σ φ bp sink bcss bjs jp type rawBody uriStr s b h
    rcases h with h | ⟨v, hok, hval⟩
    · simp [handleBundleRequest, h]
    · simp [handleBundleRequest, hok, hval]

/-- Witness for C6: the decoder fails on the empty and on a blank body
(status 400), the empty list and a list with a null entry are rejected
(status 400), a concrete well-formed list is accepted, and a concrete
rejected request leaves the sink state untouched. -/
theorem C6_witness :
    (∃ b, parseBody jsonValParse "" = .error b ∧ b.statusCode = 400 ∧ b.cause = jsonEndErr) ∧
    (∃ b, parseBody jsonValParse "  \n " = .error b ∧ b.statusCode = 400) ∧
    (∃ b, validateFeeds (.varr []) = .error b ∧ b.statusCode = 400) ∧
    (∃ b, validateFeeds (.varr ([.vstr "ok.json"] ++ .vnull :: [])) = .error b ∧
      b.statusCode = 400) ∧
    (validateFeeds (.varr [.vstr "a.json"])).isOk = true ∧
    handleBundleRequest jsonValParse memSink jsvalBundler jsvalBundler jsonValParse
      "js" "" "http://h/" [] =
      (.error (.boom (boomify jsonEndErr (some 400)
        (some "No feed data given in POST-body."))), []) := by
  obtain ⟨h1, h2, h3, h4, h5, h6⟩ := C6_validation_boundary
  refine ⟨h1 jsonValParse "" jsonEndErr (by rfl), h2 "  \n " (by decide), h3,
    h4 [.vstr "ok.json"] .vnull [] (by rfl), ?_, ?_⟩
  · exact (h5 (.varr [.vstr "a.json"])).mpr
      ⟨[.vstr "a.json"], rfl, by decide, by decide, fun x hx => by
        simp only [List.mem_singleton] at hx
        exact ⟨"a.json", hx, by decide⟩⟩
  · exact h6 jsonValParse memSink jsvalBundler jsvalBundler jsonValParse "js" "" "http://h/"
      [] _ (.inl (by rfl))

/-! Claim C4. -/

/-- Bind of a success in the `Except` monad reduces to the continuation. -/
theorem exc_bind_ok {α β : Type} (a : α) (k : α → Except JsError β) :
    (Except.ok a >>= k : Except JsError β) = k a := rfl

/-- C4: end-to-end success over the reference in-memory Sink.  For any
decoder and JS bundler, if the store holds raw feed records under `idA`
and `idB`, both decode, and the JS bundler produces `content` for those
two parsed feeds in that input order, then `bundleAndUpload` with type
`js` returns `file = hash ++ ".js"` (with `hash` the lowercase-hex
SHA-256 digest of the bundler's bytes) and `uri = base ++ file`, and
afterwards the Sink holds exactly `content` under the key `file`. -/
theorem C4_end_to_end {φ : Type} (jp : String → Except JsError φ)
    (bcss bjs : List φ → Except JsError String)
    (idA idB rawA rawB : String) (pA pB : φ) (content base : String)
    (store : List (String × String))
    (hA : store.lookup idA = some rawA) (hB : store.lookup idB = some rawB)
    (hpA : jp rawA = .ok pA) (hpB : jp rawB = .ok pB)
    (hbundle : bjs [pA, pB] = .ok content) :
    bundleAndUpload memSink bcss bjs jp "js" [idA, idB] base store =
      (.ok ⟨createHashFromContent content ++ ".js",
            base ++ (createHashFromContent content ++ ".js")⟩,
       (createHashFromContent content ++ ".js", content) :: store) ∧
    ((createHashFromContent content ++ ".js", content) :: store).lookup
        (createHashFromContent content ++ ".js") = some content := by
  have hgA : memSink.get idA store = (.ok rawA, store) := by simp [memSink, hA]
  have hgB : memSink.get idB store = (.ok rawB, store) := by simp [memSink, hB]
  have hpxA : pretry (runOnce memSink idA) 3 store = (.ok rawA, store) := by
    simp [pretry, runOnce, hgA]
  have hpxB : pretry (runOnce memSink idB) 3 store = (.ok rawB, store) := by
    simp [pretry, runOnce, hgB]
  have hff : fetchFeeds memSink [idA, idB] 3 store = (.ok [rawA, rawB], store) := by
    simp [fetchFeeds, fetchList, hpxA, hpxB]
  have hm : [rawA, rawB].mapM jp = .ok [pA, pB] := by
    rw [List.mapM_cons, hpA, exc_bind_ok, List.mapM_cons, hpB, exc_bind_ok, List.mapM_nil]
    rfl
  have hparse : parseFeeds jp [rawA, rawB] = .ok [pA, pB] := by
    simp only [parseFeeds]
    rw [hm]
  have hbf : bundleFeeds bcss bjs [pA, pB] "js" = .ok content := by
    unfold bundleFeeds
    rw [if_neg (by decide), hbundle]
  have hfn : createHashFromContent content ++ "." ++ "js" =
      createHashFromContent content ++ ".js" := by
    rw [String.append_assoc]
    rfl
  have hup : upload memSink (createHashFromContent content ++ ".js") content 3 store =
      (.ok (), (createHashFromContent content ++ ".js", content) :: store) := by
    have hset : memSink.set (createHashFromContent content ++ ".js") content store =
        (.ok (), (createHashFromContent content ++ ".js", content) :: store) := rfl
    simp [upload, pretry, hset]
  constructor
  · rw [bundleAndUpload, if_pos (by simp)]
    rw [hff]
    simp only [hparse, hbf, hfn, hup]
  · simp [List.lookup]

/-- Witness for C4: two concrete raw feeds `a` and `b`, the identity
decoder and the concatenating JS bundler (so the bundle bytes are `ab`,
whose digest the kernel computes), over a concrete store. -/
theorem C4_witness :
    (bundleAndUpload memSink failBundler joinBundler idDecode "js"
      ["feeda.json", "feedb.json"] "http://host/bundle/"
      [("feeda.json", "a"), ("feedb.json", "b")] =
      (.ok ⟨createHashFromContent "ab" ++ ".js",
        "http://host/bundle/" ++ (createHashFromContent "ab" ++ ".js")⟩,
       (createHashFromContent "ab" ++ ".js", "ab") ::
         [("feeda.json", "a"), ("feedb.json", "b")]) ∧
    ((createHashFromContent "ab" ++ ".js", "ab") ::
        [("feeda.json", "a"), ("feedb.json", "b")]).lookup
        (createHashFromContent "ab" ++ ".js") = some "ab") ∧
    createHashFromContent "ab" =
      "fb8e20fc2e4c3f248c60c39bd652f3c1347298bb977b8b4d5903b85055620603" := by
  refine ⟨?_, by decide⟩
  exact C4_end_to_end idDecode failBundler joinBundler "feeda.json" "feedb.json"
    "a" "b" "a" "b" "ab" "http://host/bundle/"
    [("feeda.json", "a"), ("feedb.json", "b")]
    (by rfl) (by rfl) (by rfl) (by rfl) (by rfl)

/-! Claim C9: counterexample and amended form. -/

/-- Each rendered word contributes eight characters. -/
theorem wordHex_length (w : Nat) : (wordHex w).length = 8 := rfl

/-- A rendered digest has exactly 64 characters. -/
theorem words8Hex_length (st : Words8) : (words8Hex st).length = 64 := by
  simp [words8Hex, wordHex]

/-- The hexadecimal digit of a reduced nibble is a lowercase hex
character. -/
theorem hexChar_mem (n : Nat) : isHexLowerChar (hexChar (n % 16)) = true := by
  have h : n % 16 < 16 := Nat.mod_lt _ (by decide)
  revert h
  generalize n % 16 = m
  intro h
  interval_cases m <;> decide

/-- Every character of a rendered word is lowercase hex. -/
theorem wordHex_hex (w : Nat) : ∀ c ∈ wordHex w, isHexLowerChar c = true := by
  intro c hc
  simp only [wordHex, List.mem_cons, List.not_mem_nil, or_false] at hc
  rcases hc with rfl | rfl | rfl | rfl | rfl | rfl | rfl | rfl <;> exact hexChar_mem _

/-- Every character of a rendered digest is lowercase hex. -/
theorem words8Hex_hex (st : Words8) : ∀ c ∈ words8Hex st, isHexLowerChar c = true := by
  intro c hc
  simp only [words8Hex, List.mem_append] at hc
  rcases hc with ((((((h | h) | h) | h) | h) | h) | h) | h <;> exact wordHex_hex _ c h

/-- A successful `bundleAndUpload` run names the artifact
`hash ++ "." ++ type` for the bundled content, and its uri is the base
concatenated with that name. -/
theorem bundleAndUpload_ok_file {σ φ : Type} (sink : Sink σ)
    (bcss bjs : List φ → Except JsError String) (jp : String → Except JsError φ)
    (type : String) (feedIds : List String) (uriStr : String) (s : σ)
    (res : BundleResult) (s' : σ)
    (h : bundleAndUpload sink bcss bjs jp type feedIds uriStr s = (.ok res, s')) :
    ∃ content, res.file = createHashFromContent content ++ "." ++ type ∧
      res.uri = uriStr ++ res.file := by
  by_cases hlen : feedIds.length > 0
  · rw [bundleAndUpload, if_pos hlen] at h
    rcases hf : fetchFeeds sink feedIds 3 s with ⟨rf, s₁⟩
    rw [hf] at h
    cases rf with
    | error e => simp at h
    | ok fetched =>
      cases hp : parseFeeds jp fetched with
      | error e => simp [hp] at h
      | ok parsed =>
        cases hb : bundleFeeds bcss bjs parsed type with
        | error e => simp [hp, hb] at h
        | ok content =>
          rcases hu : upload sink (createHashFromContent content ++ "." ++ type) content 3 s₁
            with ⟨ru, s''⟩
          simp only [hp, hb, hu] at h
          cases ru with
          | error e => simp at h
          | ok u =>
            simp only [Prod.mk.injEq, Except.ok.injEq] at h
            obtain ⟨hres, -⟩ := h
            exact ⟨content, by rw [← hres], by rw [← hres]⟩
  · rw [bundleAndUpload, if_neg hlen] at h
    simp at h

/-- C9 fails as stated: `bundleAndUpload` accepts any asset-type string,
so a successful invocation with type `png` (the permissive JS fallback of
`bundleFeeds`) returns a file named `hash ++ ".png"`, which is not of the
claimed `{64-hex}.{js|css}` form. -/
theorem C9_counterexample :
    (bundleAndUpload memSink failBundler joinBundler idDecode "png" ["a.json"]
        "http://h/" [("a.json", "X")]).1 =
      .ok ⟨"4b68ab3847feda7d6c62c1fbcbeebfa35eab7351ed5e78f4ddadea5df64b8015.png",
        "http://h/4b68ab3847feda7d6c62c1fbcbeebfa35eab7351ed5e78f4ddadea5df64b8015.png"⟩ ∧
    ¬ isClaimedStoredName
      "4b68ab3847feda7d6c62c1fbcbeebfa35eab7351ed5e78f4ddadea5df64b8015.png" := by
  constructor
  · rfl
  · rintro ⟨hx, t, hdata, hlen, -, ht⟩
    have h1 : ("4b68ab3847feda7d6c62c1fbcbeebfa35eab7351ed5e78f4ddadea5df64b8015.png" :
        String).data.drop 64 = '.' :: t := by
      rw [hdata]
      exact List.drop_left' hlen
    have h2 : ("4b68ab3847feda7d6c62c1fbcbeebfa35eab7351ed5e78f4ddadea5df64b8015.png" :
        String).data.drop 64 = ['.', 'p', 'n', 'g'] := by decide
    rw [h1] at h2
    have ht' : t = ['p', 'n', 'g'] := by simpa using h2
    rcases ht with rfl | rfl
    · exact absurd ht' (by decide)
    · exact absurd ht' (by decide)

/-- C9 (amended): every successful `bundleAndUpload` invocation returns a
file field equal to the 64-character lowercase-hex SHA-256 digest of the
bundle bytes, followed by a dot, followed by the invocation's asset-type
string — which is `js` or `css` exactly when a supported AssetType was
supplied, in which case the claimed `{64-hex}.{js|css}` format holds. -/
theorem C9_stored_name_format {σ φ : Type} (sink : Sink σ)
    (bcss bjs : List φ → Except JsError String) (jp : String → Except JsError φ)
    (type : String) (feedIds : List String) (uriStr : String) (s : σ)
    (res : BundleResult) (s' : σ)
    (h : bundleAndUpload sink bcss bjs jp type feedIds uriStr s = (.ok res, s')) :
    (∃ content, res.file = createHashFromContent content ++ "." ++ type ∧
      (createHashFromContent content).data.length = 64 ∧
      ∀ c ∈ (createHashFromContent content).data, isHexLowerChar c = true) ∧
    ((type = "js" ∨ type = "css") → isClaimedStoredName res.file) := by
  obtain ⟨content, hfile, -⟩ :=
    bundleAndUpload_ok_file sink bcss bjs jp type feedIds uriStr s res s' h
  have hdata : (createHashFromContent content).data =
      words8Hex (sha256Words (strBytes content)) := rfl
  have hlen : (createHashFromContent content).data.length = 64 := by
    rw [hdata]
    exact words8Hex_length _
  have hhex : ∀ c ∈ (createHashFromContent content).data, isHexLowerChar c = true := by
    rw [hdata]
    exact words8Hex_hex _
  refine ⟨⟨content, hfile, hlen, hhex⟩, ?_⟩
  intro ht
  refine ⟨(createHashFromContent content).data, type.data, ?_, hlen, hhex, ?_⟩
  · rw [hfile, String.data_append, String.data_append]
    simp
  · rcases ht with rfl | rfl
    · exact Or.inl rfl
    · exact Or.inr rfl

/-- Witness for C9 (amended): a concrete successful `js` run; the file
field carries the digest of the bundle bytes `c` and satisfies the
claimed format. -/
theorem C9_witness :
    (∃ content,
      (BundleResult.mk (createHashFromContent "c" ++ "." ++ "js")
          ("http://h/" ++ (createHashFromContent "c" ++ "." ++ "js"))).file =
        createHashFromContent content ++ "." ++ "js" ∧
      (createHashFromContent content).data.length = 64 ∧
      ∀ c ∈ (createHashFromContent content).data, isHexLowerChar c = true) ∧
    (("js" : String) = "js" ∨ ("js" : String) = "css" →
      isClaimedStoredName
        (BundleResult.mk (createHashFromContent "c" ++ "." ++ "js")
          ("http://h/" ++ (createHashFromContent "c" ++ "." ++ "js"))).file) := by
  exact C9_stored_name_format memSink failBundler joinBundler idDecode "js" ["a.json"]
    "http://h/" [("a.json", "c")]
    ⟨createHashFromContent "c" ++ "." ++ "js",
      "http://h/" ++ (createHashFromContent "c" ++ "." ++ "js")⟩
    ((createHashFromContent "c" ++ "." ++ "js", "c") :: [("a.json", "c")])
    (by rfl)

end AssetPipeServer
